import Mathlib

/-!
# diplicity `auth` package: secret cache, credential provisioning, token codec,
request filter and redirect to login

A shallow embedding of `src/auth/auth.go`.

* Go strings are Lean `String`s (sequences of Unicode characters; byte strings
  that are not valid UTF-8 are outside the model), byte slices are `List Nat`,
  `time.Time` is an instant counted in nanoseconds (`Int`).
* The Go `error` interface is the type `GoError`: either the framework's
  `HTTPErr{Body, Status}` or an error value produced by a library outside this
  repository (datastore, `crypto/rand`, `encoding/base64`, `encoding/json`).
  Such a library does not know the type `HTTPErr`; its errors are given by
  their message (a `String`) and reach the caller as `GoError.other`.
* Functions of libraries outside the repository (`base64.URLEncoding`,
  `secretbox`, `encoding/json`, the non-ASCII part of `unicode.ToLower`) are
  the fields of the parameter `Lib`; those of `net/url` are the fields of the
  parameter `NetURL`.
* Process-wide variables (`prodNaCl`, `prodOAuth`) and the two datastore
  entities the package owns are the fields of `World`; every function that
  touches them takes a `World` and returns the `World` it leaves behind.
* What the environment decides during one call (datastore failures, the bytes
  of `rand.Reader`, a concurrent writer) is the parameter `Oracle`.
-/

namespace Auth

/-! ## Data model -/

/-- Go `error` values seen by this package: `HTTPErr{Body, Status}` of the
web framework, or an error of another library, identified by its message. -/
inductive GoError where
  | HTTPErr (Body : String) (Status : Nat)
  | other (msg : String)
  deriving DecidableEq, Repr

/-- Nanoseconds in `time.Hour * 24`. -/
def day : Int := 24 * 3600 * 1000000000

/-- The `User` struct (auth.go 204-217). -/
structure User where
  Email : String
  FamilyName : String
  Gender : String
  GivenName : String
  Hd : String
  Id : String
  Link : String
  Locale : String
  Name : String
  Picture : String
  VerifiedEmail : Bool
  ValidUntil : Int
  deriving DecidableEq, Repr

/-- The `OAuth` struct (auth.go 294-297). -/
structure OAuth where
  ClientID : String
  Secret : String
  deriving DecidableEq, Repr

/-- Process-wide variables `prodNaCl`, `prodOAuth` (nil is `none`) and the two
datastore entities under the keys `getNaClKey` and `getOAuthKey` (absent is
`none`). A `naCl` value is represented by its `Secret` field. -/
structure World where
  prodNaCl : Option (List Nat)
  prodOAuth : Option OAuth
  naClEntity : Option (List Nat)
  oAuthEntity : Option OAuth
  deriving DecidableEq, Repr

/-- What the environment decides during one call of a function of this
package. -/
structure Oracle where
  /-- the first `datastore.Get` fails with an error that is not
  `ErrNoSuchEntity` -/
  getErr : Option String
  /-- reading `rand.Reader` fails -/
  randErr : Option String
  /-- the bytes `rand.Reader` delivers, by position -/
  randBytes : Nat → Nat
  /-- a secret another writer stores under `getNaClKey` after this call's
  first read found the entity absent and before its transaction starts -/
  racer : Option (List Nat)
  /-- the `datastore.Get` inside the transaction fails with an error that is
  not `ErrNoSuchEntity` -/
  txGetErr : Option String
  /-- the `datastore.Put` inside the transaction fails -/
  txPutErr : Option String
  /-- the function ran without error but `RunInTransaction` fails to commit -/
  commitErr : Option String

/-- Outcome of `datastore.Get`. -/
inductive GetResult (α : Type) where
  | found (v : α)
  | noSuchEntity
  | failed (e : String)

/-- The call `datastore.Get(ctx, key, dst)` against an entity slot. -/
def datastoreGet {α : Type} (fail : Option String) (slot : Option α) : GetResult α :=
  match fail with
  | some e => .failed e
  | none =>
    match slot with
    | some v => .found v
    | none => .noSuchEntity

/-- The call `io.ReadFull(rand.Reader, buf)` with `len(buf) = n`: an error, or
`n` bytes. -/
def readFull (o : Oracle) (n : Nat) : Except String (List Nat) :=
  match o.randErr with
  | some e => .error e
  | none => .ok ((List.range n).map fun i => o.randBytes i % 256)

/-- The builtin `copy(dst[:], src)` into a zeroed array of `n` bytes. -/
def copyInto (n : Nat) (src : List Nat) : List Nat :=
  src.take n ++ List.replicate (n - src.length) 0

/-! ## Secret cache -/

/-- The function passed to `datastore.RunInTransaction` in `getNaCl`
(auth.go 277-287), run against the entity slot as the transaction sees it.
Returns the function's error if any, else the value of `foundNaCl` and the
slot it leaves. -/
def naClTx (o : Oracle) (foundNaCl : List Nat) (slot : Option (List Nat)) :
    Except String (List Nat × Option (List Nat)) :=
  match datastoreGet o.txGetErr slot with
  | .found v => .ok (v, slot)
  | .failed e => .error e
  | .noSuchEntity =>
    match o.txPutErr with
    | some e => .error e
    | none => .ok (foundNaCl, some foundNaCl)

/-- The entity slot as the transaction of `getNaCl` sees it: another writer
may have created the entity since the first read. -/
def txSlot (o : Oracle) (w : World) : Option (List Nat) :=
  match w.naClEntity with
  | some v => some v
  | none => o.racer

/-- `getNaCl` (auth.go 254-292). -/
def getNaCl (o : Oracle) (w : World) : Except GoError (List Nat) × World :=
  -- check if in memory
  match w.prodNaCl with
  | some n => (.ok n, w)
  | none =>
    -- nope, check if in datastore
    match datastoreGet o.getErr w.naClEntity with
    | .found v => (.ok v, w)
    | .failed e => (.error (.other e), w)
    | .noSuchEntity =>
      -- nope, create new key
      match readFull o 32 with
      | .error e => (.error (.other e), w)
      | .ok secret =>
        -- write it transactionally into datastore
        let w1 := { w with naClEntity := txSlot o w }
        match naClTx o secret w1.naClEntity with
        | .error e => (.error (.other e), w1)
        | .ok (foundNaCl, slot) =>
          match o.commitErr with
          | some e => (.error (.other e), w1)
          | none => (.ok foundNaCl, { w1 with naClEntity := slot, prodNaCl := some foundNaCl })

/-- What can happen to the secret between the start of a process and a given
call of `getNaCl`: an earlier call of `getNaCl` by this process, in some
environment, or another writer creating the datastore entity. -/
inductive Event where
  | call (o : Oracle)
  | create (v : List Nat)

/-- The state after one event. Another writer creates the entity only when it
is absent, as the transaction of `getNaCl` does. -/
def step (w : World) : Event → World
  | .call o => (getNaCl o w).2
  | .create v =>
    match w.naClEntity with
    | some _ => w
    | none => { w with naClEntity := some v }

/-- The state after a list of events, oldest first. -/
def history (evs : List Event) (w : World) : World :=
  evs.foldl step w

/-- `getOAuth` (auth.go 316-331). -/
def getOAuth (o : Oracle) (w : World) : Except GoError OAuth × World :=
  match w.prodOAuth with
  | some a => (.ok a, w)
  | none =>
    match datastoreGet o.getErr w.oAuthEntity with
    | .found v => (.ok v, { w with prodOAuth := some v })
    | .failed e => (.error (.other e), w)
    | .noSuchEntity => (.error (.other "datastore: no such entity"), w)

/-- The function passed to `datastore.RunInTransaction` in `SetOAuth`
(auth.go 304-313), run against the entity slot as the transaction sees it.
Returns the function's error if any, else the slot it leaves. Only a
`datastore.Get` without error leads to the early return; after any error of
`datastore.Get`, `ErrNoSuchEntity` or another, the function goes on to
`datastore.Put`. -/
def setOAuthTx (o : Oracle) (oAuth : OAuth) (slot : Option OAuth) :
    Except GoError (Option OAuth) :=
  match datastoreGet o.txGetErr slot with
  | .found _ => .error (.HTTPErr "OAuth already configured" 400)
  | _ =>
    match o.txPutErr with
    | some e => .error (.other e)
    | none => .ok (some oAuth)

/-- `SetOAuth` (auth.go 303-314): the returned error (`none` is nil) and the
state left. A transaction whose function returns an error, or that fails to
commit, leaves the datastore as it was. -/
def SetOAuth (o : Oracle) (w : World) (oAuth : OAuth) : Option GoError × World :=
  match setOAuthTx o oAuth w.oAuthEntity with
  | .error e => (some e, w)
  | .ok slot =>
    match o.commitErr with
    | some e => (some (.other e), w)
    | none => (none, { w with oAuthEntity := slot })

/-! ## Token codec and request filter -/

/-- Functions of libraries outside this repository. -/
structure Lib where
  /-- the call `base64.URLEncoding.EncodeToString` -/
  encodeToString : List Nat → String
  /-- the call `base64.URLEncoding.DecodeString` -/
  decodeString : String → Except String (List Nat)
  /-- the call `secretbox.Seal(out, message, &nonce, &key)`: the box it
  appends to `out` -/
  secretboxSeal : List Nat → List Nat → List Nat → List Nat
  /-- the call `secretbox.Open([]byte{}, box, &nonce, &key)`: `none` when the
  returned flag is false -/
  secretboxOpen : List Nat → List Nat → List Nat → Option (List Nat)
  /-- the call `json.Marshal(user)` -/
  marshal : User → Except String (List Nat)
  /-- the call `json.Unmarshal(plain, user)` into a fresh `&User{}` -/
  unmarshal : List Nat → Except String User
  /-- the lower-case mapping of the Unicode tables for runes above
  `unicode.MaxASCII` -/
  toLowerTable : Char → Char

/-- The flags read by `tokenFilter`: the package variable `TestMode` and the
value of `appengine.IsDevAppServer()`. -/
structure Mode where
  TestMode : Bool
  isDevAppServer : Bool
  deriving DecidableEq, Repr

/-- What `tokenFilter` reads from the request: the query parameters `fake-id`
and `token` and the header `Authorization` (each `""` when absent). -/
structure Req where
  fakeID : String
  token : String
  authorization : String
  deriving DecidableEq, Repr

/-- The function handed to `r.DecorateLinks`: on every link whose `Rel` is not
`"logout"` it sets the query parameter `param` to `value`. -/
structure LinkDecor where
  param : String
  value : String
  deriving DecidableEq, Repr

/-- What a run of `tokenFilter` leaves behind: the returned pair (`none` when
the run ends in a run-time panic), the value stored under
`r.Values()["user"]` (`none` when nothing is stored), the link decorator
registered (`none` when none is), and the package state. -/
structure Result where
  ret : Option (Bool × Option GoError)
  user : Option User
  links : Option LinkDecor
  world : World

/-- `strings.Split(s, sep)` for a separator of one character. -/
def stringsSplit (sep : Char) : List Char → List (List Char)
  | [] => [[]]
  | c :: cs =>
    if c = sep then [] :: stringsSplit sep cs
    else
      match stringsSplit sep cs with
      | [] => [[c]]
      | p :: ps => (c :: p) :: ps

/-- `unicode.ToLower`: ASCII runes are handled by arithmetic, the others by
the Unicode tables. -/
def unicodeToLower (lib : Lib) (c : Char) : Char :=
  if c.toNat ≤ 127 then
    if 65 ≤ c.toNat ∧ c.toNat ≤ 90 then Char.ofNat (c.toNat + 32) else c
  else lib.toLowerTable c

/-- `strings.ToLower`. -/
def stringsToLower (lib : Lib) (s : List Char) : List Char :=
  s.map (unicodeToLower lib)

/-- `encodeToken` (auth.go 377-394). -/
def encodeToken (lib : Lib) (o : Oracle) (nonceSrc : Oracle) (w : World) (user : User) :
    Except GoError String × World :=
  match getNaCl o w with
  | (.error e, w1) => (.error e, w1)
  | (.ok nacl, w1) =>
    match lib.marshal user with
    | .error e => (.error (.other e), w1)
    | .ok plain =>
      match readFull nonceSrc 24 with
      | .error e => (.error (.other e), w1)
      | .ok nonceAry =>
        let secretAry := copyInto 32 nacl
        let cipher := nonceAry ++ lib.secretboxSeal plain nonceAry secretAry
        (.ok (lib.encodeToString cipher), w1)

/-- Lines 473-487 of `tokenFilter`: the values of `queryToken` and `token`
when line 489 is reached, or the error returned before. -/
def locateToken (lib : Lib) (r : Req) : Except GoError (Bool × String) :=
  if r.token ≠ "" then .ok (true, r.token)
  else if r.authorization ≠ "" then
    match stringsSplit ' ' r.authorization.toList with
    | [p0, p1] =>
      if stringsToLower lib p0 ≠ "bearer".toList then
        .error (.HTTPErr "Authorization header part 1 not 'bearer'" 400)
      else .ok (false, String.mk p1)
    | _ => .error (.HTTPErr "Authorization header not two parts joined by space" 400)
  else .ok (false, "")

/-- The record built at lines 449-457 of `tokenFilter`; the fields the
literal leaves out hold their zero value. -/
def fakeUser (fakeID : String) (now : Int) : User :=
  { Email := "fake@fake.fake", FamilyName := "Fakeson", Gender := "",
    GivenName := "Fakey", Hd := "", Id := fakeID, Link := "", Locale := "",
    Name := "Fakey Fakeson", Picture := "", VerifiedEmail := true,
    ValidUntil := now + day }

/-- `tokenFilter` (auth.go 447-536). `now` is the value of `time.Now()`. -/
def tokenFilter (m : Mode) (lib : Lib) (now : Int) (o : Oracle) (w : World) (r : Req) : Result :=
  if (m.TestMode || m.isDevAppServer) && r.fakeID ≠ "" then
    { ret := some (true, none)
      user := some (fakeUser r.fakeID now)
      links := some ⟨"fake-id", r.fakeID⟩
      world := w }
  else
    match locateToken lib r with
    | .error e => ⟨some (false, some e), none, none, w⟩
    | .ok (queryToken, token) =>
      if token ≠ "" then
        match lib.decodeString token with
        | .error e => ⟨some (false, some (.other e)), none, none, w⟩
        | .ok b =>
          let nonceAry := copyInto 24 b
          match getNaCl o w with
          | (.error e, w1) => ⟨some (false, some e), none, none, w1⟩
          | (.ok nacl, w1) =>
            let secretAry := copyInto 32 nacl
            -- the slice expression b[24:] panics when len(b) < 24
            if b.length < 24 then ⟨none, none, none, w1⟩
            else
              match lib.secretboxOpen (b.drop 24) nonceAry secretAry with
              | none => ⟨some (false, some (.HTTPErr "badly encrypted token" 403)), none, none, w1⟩
              | some plain =>
                match lib.unmarshal plain with
                | .error e => ⟨some (false, some (.other e)), none, none, w1⟩
                | .ok user =>
                  if user.ValidUntil < now then
                    ⟨some (false, some (.HTTPErr "token timed out" 401)), none, none, w1⟩
                  else
                    ⟨some (true, none), some user,
                      if queryToken then some ⟨"token", token⟩ else none, w1⟩
      else ⟨some (true, none), none, none, w⟩

/-! ## Redirect to login -/

/-- The fields of `url.URL` this package sets or prints. -/
structure URL where
  Scheme : String
  Host : String
  Path : String
  RawQuery : String
  deriving DecidableEq, Repr

/-- The type `url.Values`, a `map[string][]string`, as an association list;
the first pair with a given key is the map entry. -/
abbrev Values := List (String × List String)

/-- `Values.Set`: the map assignment `v[key] = []string{value}`. -/
def Values.Set (v : Values) (key value : String) : Values :=
  (key, [value]) :: v.filter fun p => p.1 ≠ key

/-- `Values.Get`: the first value under `key`, or `""`. -/
def Values.Get (v : Values) (key : String) : String :=
  match v.lookup key with
  | some (x :: _) => x
  | _ => ""

/-- Functions of `net/url`. -/
structure NetURL where
  /-- the method `(*url.URL).String` -/
  urlString : URL → String
  /-- the method `(*url.URL).Query` -/
  query : URL → Values
  /-- the method `url.Values.Encode` -/
  encode : Values → String

/-- What `loginRedirect` reads from `r.Req()`: the URL, whether `TLS` is
non-nil, and `Host`. -/
structure HTTPReq where
  URL : URL
  TLS : Bool
  Host : String
  deriving DecidableEq, Repr

/-- The call `http.Redirect(w, r.Req(), url, code)`. -/
structure Redirect where
  url : String
  code : Nat
  deriving DecidableEq, Repr

/-- What a run of `loginRedirect` leaves behind: the returned pair, the
redirect written to the response (`none` when none is), and the URL of the
request, which the function changes in place. -/
structure PostResult where
  ret : Bool × Option GoError
  redirect : Option Redirect
  reqURL : URL
  deriving DecidableEq, Repr

/-- `loginRedirect` (auth.go 538-565). `media` is the value of `r.Media()`,
`route` the result of `router.Get(LoginRoute).URL()`, and `errI` the incoming
error (`none` is nil). -/
def loginRedirect (lib : NetURL) (route : Except String URL) (media : String) (req : HTTPReq)
    (errI : Option GoError) : PostResult :=
  if media ≠ "text/html" then ⟨(true, errI), none, req.URL⟩
  else
    match errI with
    | some (.HTTPErr _ status) =>
      if status = 401 then
        let redirectURL : URL :=
          { req.URL with Scheme := if req.TLS = false then "http" else "https", Host := req.Host }
        match route with
        | .error e => ⟨(false, some (.other e)), none, redirectURL⟩
        | .ok loginURL =>
          let queryParams := (lib.query loginURL).Set "redirect-to" (lib.urlString redirectURL)
          let loginURL : URL := { loginURL with RawQuery := lib.encode queryParams }
          ⟨(false, none), some ⟨lib.urlString loginURL, 307⟩, redirectURL⟩
      else ⟨(true, errI), none, req.URL⟩
    | _ => ⟨(true, errI), none, req.URL⟩

/-- The route `SetupRouter` registers under the name `LoginRoute`
(auth.go 569): the fixed path `/Auth/Login`, whose URL builds without error. -/
def loginRoute : Except String URL := .ok ⟨"", "", "/Auth/Login", ""⟩

/-! ## Predicates used in the statements -/

/-- The originally requested URL as `loginRedirect` completes it: the URL of
the request with the scheme taken from the presence of TLS and the host taken
from the request. -/
def requestedURL (req : HTTPReq) : URL :=
  { req.URL with Scheme := if req.TLS = false then "http" else "https", Host := req.Host }


/-- The test bypass of `tokenFilter` is off: the condition of line 448 is
false. -/
def BypassOff (m : Mode) (r : Req) : Prop :=
  ¬ ((m.TestMode = true ∨ m.isDevAppServer = true) ∧ r.fakeID ≠ "")

/-- The in-memory secret, when there is one, is the secret in the datastore. -/
def Coherent (w : World) : Prop :=
  ∀ s, w.prodNaCl = some s → w.naClEntity = some s

/-! ## A small instance of the parameters

Used to evaluate the definitions on concrete inputs. -/

/-- The character of the URL-safe base64 alphabet for a six-bit value. -/
def b64Char (v : Nat) : Char :=
  "ABCDEFGHIJKLMNOPQRSTUVWXYZabcdefghijklmnopqrstuvwxyz0123456789-_".toList.getD v 'A'

/-- The six-bit value of a character of the URL-safe base64 alphabet. -/
def b64Val (c : Char) : Option Nat :=
  if 65 ≤ c.toNat ∧ c.toNat ≤ 90 then some (c.toNat - 65)
  else if 97 ≤ c.toNat ∧ c.toNat ≤ 122 then some (c.toNat - 71)
  else if 48 ≤ c.toNat ∧ c.toNat ≤ 57 then some (c.toNat + 4)
  else if c = '-' then some 62
  else if c = '_' then some 63
  else none

/-- Padded base64 encoding of a list of bytes over the URL-safe alphabet. -/
def b64Encode : List Nat → List Char
  | a :: b :: c :: rest =>
    b64Char (a / 4) :: b64Char (a % 4 * 16 + b / 16) :: b64Char (b % 16 * 4 + c / 64) ::
      b64Char (c % 64) :: b64Encode rest
  | [a, b] => [b64Char (a / 4), b64Char (a % 4 * 16 + b / 16), b64Char (b % 16 * 4), '=']
  | [a] => [b64Char (a / 4), b64Char (a % 4 * 16), '=', '=']
  | [] => []

/-- Padded base64 decoding over the URL-safe alphabet: groups of four
characters, padding only in the last group; `none` on any other input. -/
def b64Decode : List Char → Option (List Nat)
  | [] => some []
  | [c0, c1, c2, c3] =>
    match b64Val c0, b64Val c1 with
    | some v0, some v1 =>
      if c2 = '=' ∧ c3 = '=' then some [v0 * 4 + v1 / 16]
      else
        match b64Val c2 with
        | none => none
        | some v2 =>
          if c3 = '=' then some [v0 * 4 + v1 / 16, v1 % 16 * 16 + v2 / 4]
          else
            match b64Val c3 with
            | none => none
            | some v3 => some [v0 * 4 + v1 / 16, v1 % 16 * 16 + v2 / 4, v2 % 4 * 64 + v3]
    | _, _ => none
  | c0 :: c1 :: c2 :: c3 :: rest =>
    match b64Val c0, b64Val c1, b64Val c2, b64Val c3, b64Decode rest with
    | some v0, some v1, some v2, some v3, some bs =>
      some ([v0 * 4 + v1 / 16, v1 % 16 * 16 + v2 / 4, v2 % 4 * 64 + v3] ++ bs)
    | _, _, _, _, _ => none
  | _ => none

/-- A library instance: padded URL-safe base64 as transport encoding (line
breaks in the input are skipped, as `encoding/base64` does), a box that
carries a one-byte tag in front of the message, and a record encoding that
keeps `ValidUntil` and `Id`. -/
def demoLib : Lib where
  encodeToString := fun bs => String.mk (b64Encode bs)
  decodeString := fun s =>
    match b64Decode (s.toList.filter fun c => c ≠ '\n' ∧ c ≠ '\r') with
    | some bs => .ok bs
    | none => .error "illegal base64 data"
  secretboxSeal := fun msg nonce key => (nonce.sum + key.sum) % 256 :: msg
  secretboxOpen := fun box nonce key =>
    match box with
    | [] => none
    | t :: msg => if t = (nonce.sum + key.sum) % 256 then some msg else none
  marshal := fun u => .ok (u.ValidUntil.toNat :: u.Id.toList.map Char.toNat)
  unmarshal := fun p =>
    match p with
    | [] => .error "unexpected end of JSON input"
    | v :: cs =>
      .ok { Email := "", FamilyName := "", Gender := "", GivenName := "", Hd := "",
            Id := String.mk (cs.map Char.ofNat), Link := "", Locale := "", Name := "",
            Picture := "", VerifiedEmail := false, ValidUntil := v }
  toLowerTable := fun c => c

/-- An environment in which nothing fails, `rand.Reader` delivers the bytes
`0, 1, 2, ...` and no other writer interferes. -/
def calm : Oracle where
  getErr := none
  randErr := none
  randBytes := fun i => i
  racer := none
  txGetErr := none
  txPutErr := none
  commitErr := none

/-- The quiet environment, except that another writer stores the secret `v`
between the first read of `getNaCl` and its transaction. -/
def raced (v : List Nat) : Oracle := { calm with racer := some v }

/-- A process that has not yet used its secret, against an empty datastore. -/
def coldWorld : World := ⟨none, none, none, none⟩

/-- A process whose cache and datastore both hold the secret `key`. -/
def warmWorld (key : List Nat) : World := ⟨some key, none, some key, none⟩

/-- A record with the given identifier and expiry and every other field zero. -/
def demoUser (id : String) (validUntil : Int) : User :=
  { Email := "", FamilyName := "", Gender := "", GivenName := "", Hd := "", Id := id,
    Link := "", Locale := "", Name := "", Picture := "", VerifiedEmail := false,
    ValidUntil := validUntil }

/-- The token `encodeToken` issues for `u` under `demoLib`, in the quiet
environment, when the secret is `key`. -/
def demoToken (key : List Nat) (u : User) : String :=
  match (encodeToken demoLib calm calm (warmWorld key) u).1 with
  | .ok t => t
  | .error _ => ""

/-- The quiet environment, except that the `datastore.Get` inside the
transaction fails with the error `e`, which is not `ErrNoSuchEntity`. -/
def readFails (e : String) : Oracle := { calm with txGetErr := some e }

/-- A fresh process against a datastore that holds the client credentials `a`
and no secret. -/
def provisioned (a : OAuth) : World := ⟨none, none, none, some a⟩

/-- An upper-case hexadecimal digit. -/
def hexDigit (n : Nat) : Char :=
  "0123456789ABCDEF".toList.getD n '0'

/-- Percent-encoding of a query component: letters, digits and `-_.~` stay, a
blank becomes `+`, every other character becomes the `%XX` of its UTF-8
bytes. -/
def queryEscape (s : List Char) : List Char :=
  s.flatMap fun c =>
    if c.isAlphanum ∨ c = '-' ∨ c = '_' ∨ c = '.' ∨ c = '~' then [c]
    else if c = ' ' then ['+']
    else (String.utf8EncodeChar c).flatMap fun b =>
      ['%', hexDigit (b.toNat / 16), hexDigit (b.toNat % 16)]

/-- An instance of `net/url`: the URL is printed as scheme, host, path and
query; the query of a URL is empty when `RawQuery` is and one raw entry
otherwise; values are encoded in list order as `key=value` joined by `&`. -/
def demoURL : NetURL where
  urlString := fun u =>
    (if u.Scheme ≠ "" then u.Scheme ++ ":" else "") ++
    (if u.Scheme ≠ "" ∨ u.Host ≠ "" then "//" ++ u.Host else "") ++
    u.Path ++ (if u.RawQuery ≠ "" then "?" ++ u.RawQuery else "")
  query := fun u => if u.RawQuery = "" then [] else [(u.RawQuery, [""])]
  encode := fun v =>
    String.mk (List.intercalate ['&'] (v.flatMap fun p =>
      p.2.map fun x => queryEscape p.1.toList ++ '=' :: queryEscape x.toList))

/-- A browser request for `/Game/1?x=1` on host `example.com`, over TLS or
not. -/
def demoReq (tls : Bool) : HTTPReq := ⟨⟨"", "", "/Game/1", "x=1"⟩, tls, "example.com"⟩

/-! ## Auxiliary facts -/

theorem readFull_length (o : Oracle) (n : Nat) (bs : List Nat) (h : readFull o n = .ok bs) :
    bs.length = n := by
  unfold readFull at h
  cases hr : o.randErr with
  | some e => simp [hr] at h
  | none =>
    simp only [hr] at h
    injection h with h
    subst h
    simp

theorem copyInto_append_of_length (n : Nat) (a b : List Nat) (h : a.length = n) :
    copyInto n (a ++ b) = a := by
  subst h
  simp [copyInto]

/-- With the bypass off, a located non-empty token that decodes to `b`, and a
secret at hand, `tokenFilter` is the verification of lines 497-532. -/
theorem tokenFilter_verify (m : Mode) (lib : Lib) (now : Int) (o : Oracle) (w w1 : World)
    (r : Req) (q : Bool) (tok : String) (b key : List Nat)
    (hoff : BypassOff m r) (hloc : locateToken lib r = .ok (q, tok)) (hne : tok ≠ "")
    (hdec : lib.decodeString tok = .ok b) (hkey : getNaCl o w = (.ok key, w1)) :
    tokenFilter m lib now o w r =
      if b.length < 24 then ⟨none, none, none, w1⟩
      else
        match lib.secretboxOpen (b.drop 24) (copyInto 24 b) (copyInto 32 key) with
        | none => ⟨some (false, some (.HTTPErr "badly encrypted token" 403)), none, none, w1⟩
        | some plain =>
          match lib.unmarshal plain with
          | .error e => ⟨some (false, some (.other e)), none, none, w1⟩
          | .ok user =>
            if user.ValidUntil < now then
              ⟨some (false, some (.HTTPErr "token timed out" 401)), none, none, w1⟩
            else
              ⟨some (true, none), some user,
                if q then some ⟨"token", tok⟩ else none, w1⟩ := by
  have hb : ((m.TestMode || m.isDevAppServer) && decide (r.fakeID ≠ "")) = false := by
    unfold BypassOff at hoff
    cases hT : m.TestMode <;> cases hD : m.isDevAppServer <;> simp_all
  unfold tokenFilter
  simp only [hb, hloc, hdec, hkey, hne]
  simp
  intro h
  exact absurd h hne

theorem locateToken_query (lib : Lib) (fakeID tok authorization : String) (hne : tok ≠ "") :
    locateToken lib ⟨fakeID, tok, authorization⟩ = .ok (true, tok) := by
  simp [locateToken, hne]

/-- What `encodeToken` returns when the secret lookup, the serialisation and
the nonce generation succeed. -/
theorem encodeToken_ok (lib : Lib) (o nonceSrc : Oracle) (w w1 : World) (r : User)
    (key plain nonce : List Nat)
    (hkey : getNaCl o w = (.ok key, w1)) (hmar : lib.marshal r = .ok plain)
    (hnonce : readFull nonceSrc 24 = .ok nonce) :
    encodeToken lib o nonceSrc w r =
      (.ok (lib.encodeToString (nonce ++ lib.secretboxSeal plain nonce (copyInto 32 key))), w1) := by
  simp [encodeToken, hkey, hmar, hnonce]

/-- The verdict of `tokenFilter` on a query token made of a 24-byte nonce
followed by a box that opens to the serialisation of `r`. -/
theorem tokenFilter_sealed (m : Mode) (lib : Lib) (now : Int) (o : Oracle) (w w1 : World)
    (r : User) (fakeID authorization tok : String) (key plain nonce box : List Nat)
    (hlen : nonce.length = 24)
    (hoff : BypassOff m ⟨fakeID, tok, authorization⟩) (hne : tok ≠ "")
    (hdec : lib.decodeString tok = .ok (nonce ++ box))
    (hkey : getNaCl o w = (.ok key, w1))
    (hopen : lib.secretboxOpen box nonce (copyInto 32 key) = some plain)
    (hjson : lib.unmarshal plain = .ok r) :
    tokenFilter m lib now o w ⟨fakeID, tok, authorization⟩ =
      if r.ValidUntil < now then
        ⟨some (false, some (.HTTPErr "token timed out" 401)), none, none, w1⟩
      else ⟨some (true, none), some r, some ⟨"token", tok⟩, w1⟩ := by
  rw [tokenFilter_verify m lib now o w w1 _ true tok (nonce ++ box) key hoff
    (locateToken_query lib fakeID tok authorization hne) hne hdec hkey]
  have h24 : ¬ (nonce ++ box).length < 24 := by simp [hlen]
  have hdrop : (nonce ++ box).drop 24 = box := by
    rw [← hlen]; simp
  simp only [h24, if_false, hdrop, copyInto_append_of_length 24 nonce box hlen, hopen, hjson]
  simp

/-- C1. Round trip of the token codec. Let `encodeToken` run for the record `r`
with secret `key` and nonce `nonce` (the 24 bytes read from `rand.Reader`), and
let the library calls invert each other on the values at hand: the encoded
string decodes to the bytes encoded, the box opens under the same nonce and
key to the serialised record, and the serialisation deserialises to `r`. Then
`encodeToken` returns a token `tok`, and `tokenFilter`, given `tok` as query
parameter `token` with the bypass off, the same secret and a clock earlier than
`r.ValidUntil`, returns `(true, nil)` and stores a record equal to `r` under
`"user"`. -/
theorem encodeToken_tokenFilter_roundtrip (m : Mode) (lib : Lib) (now : Int)
    (o nonceSrc o2 : Oracle) (w w1 w2 w3 : World) (r : User)
    (fakeID authorization tok : String) (key plain nonce : List Nat)
    (hkey : getNaCl o w = (.ok key, w1))
    (hmar : lib.marshal r = .ok plain)
    (hnonce : readFull nonceSrc 24 = .ok nonce)
    (htok : tok = lib.encodeToString (nonce ++ lib.secretboxSeal plain nonce (copyInto 32 key)))
    (hne : tok ≠ "")
    (hoff : BypassOff m ⟨fakeID, tok, authorization⟩)
    (hkey2 : getNaCl o2 w2 = (.ok key, w3))
    (hb64 : lib.decodeString tok = .ok (nonce ++ lib.secretboxSeal plain nonce (copyInto 32 key)))
    (hopen : lib.secretboxOpen (lib.secretboxSeal plain nonce (copyInto 32 key)) nonce
      (copyInto 32 key) = some plain)
    (hjson : lib.unmarshal plain = .ok r)
    (hvalid : now < r.ValidUntil) :
    encodeToken lib o nonceSrc w r = (.ok tok, w1) ∧
    tokenFilter m lib now o2 w2 ⟨fakeID, tok, authorization⟩ =
      ⟨some (true, none), some r, some ⟨"token", tok⟩, w3⟩ := by
  refine ⟨?_, ?_⟩
  · rw [htok]
    exact encodeToken_ok lib o nonceSrc w w1 r key plain nonce hkey hmar hnonce
  · rw [tokenFilter_sealed m lib now o2 w2 w3 r fakeID authorization tok key plain nonce _
      (readFull_length nonceSrc 24 nonce hnonce) hoff hne hb64 hkey2 hopen hjson]
    have : ¬ r.ValidUntil < now := by omega
    simp [this]

theorem encodeToken_tokenFilter_roundtrip_witness :
    encodeToken demoLib calm calm (warmWorld [7]) (demoUser "u" 100) =
        (.ok (demoToken [7] (demoUser "u" 100)), warmWorld [7]) ∧
    tokenFilter ⟨false, false⟩ demoLib 5 calm (warmWorld [7])
        ⟨"", demoToken [7] (demoUser "u" 100), ""⟩ =
      ⟨some (true, none), some (demoUser "u" 100),
        some ⟨"token", demoToken [7] (demoUser "u" 100)⟩, warmWorld [7]⟩ :=
  encodeToken_tokenFilter_roundtrip ⟨false, false⟩ demoLib 5 calm calm calm
    (warmWorld [7]) (warmWorld [7]) (warmWorld [7]) (warmWorld [7]) (demoUser "u" 100)
    "" "" (demoToken [7] (demoUser "u" 100)) [7] [100, 117] (List.range 24)
    rfl rfl rfl rfl (by decide) (by unfold BypassOff; decide) rfl rfl rfl rfl (by decide)

/-- C2. Expiry. Under the assumptions of the round trip (the library calls
invert each other on the values at hand, same secret, bypass off), when
`r.ValidUntil` is earlier than the clock read at verification, `encodeToken`
returns a token `tok` and `tokenFilter` on `tok` returns
`(false, HTTPErr{"token timed out", 401})` and stores nothing under `"user"`. -/
theorem encodeToken_tokenFilter_expired (m : Mode) (lib : Lib) (now : Int)
    (o nonceSrc o2 : Oracle) (w w1 w2 w3 : World) (r : User)
    (fakeID authorization tok : String) (key plain nonce : List Nat)
    (hkey : getNaCl o w = (.ok key, w1))
    (hmar : lib.marshal r = .ok plain)
    (hnonce : readFull nonceSrc 24 = .ok nonce)
    (htok : tok = lib.encodeToString (nonce ++ lib.secretboxSeal plain nonce (copyInto 32 key)))
    (hne : tok ≠ "")
    (hoff : BypassOff m ⟨fakeID, tok, authorization⟩)
    (hkey2 : getNaCl o2 w2 = (.ok key, w3))
    (hb64 : lib.decodeString tok = .ok (nonce ++ lib.secretboxSeal plain nonce (copyInto 32 key)))
    (hopen : lib.secretboxOpen (lib.secretboxSeal plain nonce (copyInto 32 key)) nonce
      (copyInto 32 key) = some plain)
    (hjson : lib.unmarshal plain = .ok r)
    (hpast : r.ValidUntil < now) :
    encodeToken lib o nonceSrc w r = (.ok tok, w1) ∧
    tokenFilter m lib now o2 w2 ⟨fakeID, tok, authorization⟩ =
      ⟨some (false, some (.HTTPErr "token timed out" 401)), none, none, w3⟩ := by
  refine ⟨?_, ?_⟩
  · rw [htok]
    exact encodeToken_ok lib o nonceSrc w w1 r key plain nonce hkey hmar hnonce
  · rw [tokenFilter_sealed m lib now o2 w2 w3 r fakeID authorization tok key plain nonce _
      (readFull_length nonceSrc 24 nonce hnonce) hoff hne hb64 hkey2 hopen hjson]
    simp [hpast]

theorem encodeToken_tokenFilter_expired_witness :
    encodeToken demoLib calm calm (warmWorld [7]) (demoUser "u" 100) =
        (.ok (demoToken [7] (demoUser "u" 100)), warmWorld [7]) ∧
    tokenFilter ⟨false, false⟩ demoLib 101 calm (warmWorld [7])
        ⟨"", demoToken [7] (demoUser "u" 100), ""⟩ =
      ⟨some (false, some (.HTTPErr "token timed out" 401)), none, none, warmWorld [7]⟩ :=
  encodeToken_tokenFilter_expired ⟨false, false⟩ demoLib 101 calm calm calm
    (warmWorld [7]) (warmWorld [7]) (warmWorld [7]) (warmWorld [7]) (demoUser "u" 100)
    "" "" (demoToken [7] (demoUser "u" 100)) [7] [100, 117] (List.range 24)
    rfl rfl rfl rfl (by decide) (by unfold BypassOff; decide) rfl rfl rfl rfl (by decide)

/-- C3. Tamper detection. With the bypass off, when the token located in the
request (query parameter or bearer header) is non-empty and decodes to at
least 24 bytes, the secret lookup succeeds, and the bytes after the first 24
do not open under that secret and the first 24 bytes as nonce, `tokenFilter`
returns `(false, HTTPErr{"badly encrypted token", 403})`, hence not
`(true, nil)`, and stores nothing under `"user"`. -/
theorem tokenFilter_tampered (m : Mode) (lib : Lib) (now : Int) (o : Oracle) (w w1 : World)
    (r : Req) (q : Bool) (tok : String) (b key : List Nat)
    (hoff : BypassOff m r) (hloc : locateToken lib r = .ok (q, tok)) (hne : tok ≠ "")
    (hdec : lib.decodeString tok = .ok b) (hlen : 24 ≤ b.length)
    (hkey : getNaCl o w = (.ok key, w1))
    (hopen : lib.secretboxOpen (b.drop 24) (copyInto 24 b) (copyInto 32 key) = none) :
    tokenFilter m lib now o w r =
        ⟨some (false, some (.HTTPErr "badly encrypted token" 403)), none, none, w1⟩ ∧
    (tokenFilter m lib now o w r).ret ≠ some (true, none) ∧
    (tokenFilter m lib now o w r).user = none := by
  have h : tokenFilter m lib now o w r =
      ⟨some (false, some (.HTTPErr "badly encrypted token" 403)), none, none, w1⟩ := by
    rw [tokenFilter_verify m lib now o w w1 r q tok b key hoff hloc hne hdec hkey]
    have h24 : ¬ b.length < 24 := by omega
    simp [h24, hopen]
  refine ⟨h, ?_, ?_⟩ <;> simp [h]

theorem tokenFilter_tampered_witness :
    tokenFilter ⟨false, false⟩ demoLib 5 calm (warmWorld [7])
        ⟨"", "", "Bearer AAECAwQFBgcICQoLDA0ODxAREhMUFRYXHGR1"⟩ =
        ⟨some (false, some (.HTTPErr "badly encrypted token" 403)), none, none, warmWorld [7]⟩ ∧
    (tokenFilter ⟨false, false⟩ demoLib 5 calm (warmWorld [7])
        ⟨"", "", "Bearer AAECAwQFBgcICQoLDA0ODxAREhMUFRYXHGR1"⟩).ret ≠ some (true, none) ∧
    (tokenFilter ⟨false, false⟩ demoLib 5 calm (warmWorld [7])
        ⟨"", "", "Bearer AAECAwQFBgcICQoLDA0ODxAREhMUFRYXHGR1"⟩).user = none :=
  tokenFilter_tampered ⟨false, false⟩ demoLib 5 calm (warmWorld [7]) (warmWorld [7])
    ⟨"", "", "Bearer AAECAwQFBgcICQoLDA0ODxAREhMUFRYXHGR1"⟩ false
    "AAECAwQFBgcICQoLDA0ODxAREhMUFRYXHGR1" (List.range 24 ++ [28, 100, 117]) [7]
    (by unfold BypassOff; decide) (by rfl) (by decide) (by rfl) (by decide) (by rfl) (by rfl)

/-- C4. Short input: what the code does. With the bypass off, when the token
located in the request is non-empty and decodes to fewer than 24 bytes and the
secret lookup succeeds, the slice expression `b[24:]` of line 506 is out of
range: `tokenFilter` ends in a run-time panic and returns nothing, so it does
not reject the request by returning `false` with an error. -/
theorem tokenFilter_short_token_panics (m : Mode) (lib : Lib) (now : Int) (o : Oracle)
    (w w1 : World) (r : Req) (q : Bool) (tok : String) (b key : List Nat)
    (hoff : BypassOff m r) (hloc : locateToken lib r = .ok (q, tok)) (hne : tok ≠ "")
    (hdec : lib.decodeString tok = .ok b) (hlen : b.length < 24)
    (hkey : getNaCl o w = (.ok key, w1)) :
    (tokenFilter m lib now o w r).ret = none ∧
    ∀ e, (tokenFilter m lib now o w r).ret ≠ some (false, some e) := by
  rw [tokenFilter_verify m lib now o w w1 r q tok b key hoff hloc hne hdec hkey]
  simp [hlen]

theorem tokenFilter_short_token_panics_witness :
    demoLib.decodeString "AAAA" = .ok [0, 0, 0] ∧
    (tokenFilter ⟨false, false⟩ demoLib 5 calm (warmWorld [7]) ⟨"", "AAAA", ""⟩).ret = none ∧
    ∀ e, (tokenFilter ⟨false, false⟩ demoLib 5 calm (warmWorld [7]) ⟨"", "AAAA", ""⟩).ret ≠
      some (false, some e) :=
  ⟨rfl, tokenFilter_short_token_panics ⟨false, false⟩ demoLib 5 calm (warmWorld [7])
    (warmWorld [7]) ⟨"", "AAAA", ""⟩ true "AAAA" [0, 0, 0] [7]
    (by unfold BypassOff; decide) rfl (by decide) rfl (by decide) rfl⟩

/-- C6, as the code has it. With the bypass off, when the token located in the
request is non-empty and `DecodeString` fails on it with the error `e`,
`tokenFilter` returns `false` with that error itself, which is not an
`HTTPErr` and so carries no status 400; it stores nothing under `"user"` and
leaves the package state as it was. -/
theorem tokenFilter_bad_base64 (m : Mode) (lib : Lib) (now : Int) (o : Oracle) (w : World)
    (r : Req) (q : Bool) (tok : String) (e : String)
    (hoff : BypassOff m r) (hloc : locateToken lib r = .ok (q, tok)) (hne : tok ≠ "")
    (hdec : lib.decodeString tok = .error e) :
    tokenFilter m lib now o w r = ⟨some (false, some (.other e)), none, none, w⟩ ∧
    ∀ body status, (tokenFilter m lib now o w r).ret ≠ some (false, some (.HTTPErr body status)) := by
  have hb : ((m.TestMode || m.isDevAppServer) && decide (r.fakeID ≠ "")) = false := by
    unfold BypassOff at hoff
    cases hT : m.TestMode <;> cases hD : m.isDevAppServer <;> simp_all
  have h : tokenFilter m lib now o w r = ⟨some (false, some (.other e)), none, none, w⟩ := by
    unfold tokenFilter
    simp only [hb, hloc, hdec, hne]
    simp
    intro h
    exact absurd h hne
  refine ⟨h, ?_⟩
  simp [h]

theorem tokenFilter_bad_base64_witness :
    tokenFilter ⟨false, false⟩ demoLib 5 calm (warmWorld [7]) ⟨"", "!!!!", ""⟩ =
      ⟨some (false, some (.other "illegal base64 data")), none, none, warmWorld [7]⟩ ∧
    ∀ body status, (tokenFilter ⟨false, false⟩ demoLib 5 calm (warmWorld [7])
      ⟨"", "!!!!", ""⟩).ret ≠ some (false, some (.HTTPErr body status)) :=
  tokenFilter_bad_base64 ⟨false, false⟩ demoLib 5 calm (warmWorld [7]) ⟨"", "!!!!", ""⟩ true
    "!!!!" "illegal base64 data" (by unfold BypassOff; decide) rfl (by decide) rfl

/-- C6, counterexample to the claim as stated. The query token `!!!!` is not
base64; `tokenFilter` returns `false` with the decoder's error, and there is
no body for which the returned error is an `HTTPErr` of status 400. -/
theorem tokenFilter_bad_base64_counterexample :
    demoLib.decodeString "!!!!" = .error "illegal base64 data" ∧
    (tokenFilter ⟨false, false⟩ demoLib 5 calm (warmWorld [7]) ⟨"", "!!!!", ""⟩).ret =
      some (false, some (.other "illegal base64 data")) ∧
    ¬ ∃ body, (tokenFilter ⟨false, false⟩ demoLib 5 calm (warmWorld [7]) ⟨"", "!!!!", ""⟩).ret =
      some (false, some (.HTTPErr body 400)) := by
  refine ⟨rfl, rfl, ?_⟩
  rintro ⟨body, h⟩
  have h2 : (tokenFilter ⟨false, false⟩ demoLib 5 calm (warmWorld [7]) ⟨"", "!!!!", ""⟩).ret =
      some (false, some (.other "illegal base64 data")) := rfl
  rw [h2] at h
  simp at h

/-- The condition of line 448 as a Boolean, from `BypassOff`. -/
theorem bypass_cond_false (m : Mode) (r : Req) (hoff : BypassOff m r) :
    ((m.TestMode || m.isDevAppServer) && decide (r.fakeID ≠ "")) = false := by
  unfold BypassOff at hoff
  cases hT : m.TestMode <;> cases hD : m.isDevAppServer <;> simp_all

/-- Every record `tokenFilter` stores under `"user"` has `ValidUntil` not
earlier than the clock. -/
theorem tokenFilter_user_not_before (m : Mode) (lib : Lib) (now : Int) (o : Oracle) (w : World)
    (r : Req) (u : User) (huser : (tokenFilter m lib now o w r).user = some u) :
    now ≤ u.ValidUntil := by
  unfold tokenFilter at huser
  split at huser
  · simp only [Option.some.injEq] at huser
    subst huser
    simp [fakeUser, day]
  · split at huser
    · simp at huser
    · split at huser
      · split at huser
        · simp at huser
        · split at huser
          · simp at huser
          · simp only at huser
            split at huser
            · simp at huser
            · split at huser
              · simp at huser
              · split at huser
                · simp at huser
                · split at huser
                  · simp at huser
                  · simp only [Option.some.injEq] at huser
                    subst huser
                    omega
      · simp at huser

/-- C7, as the code has it. Whenever `tokenFilter` returns `(true, nil)` having
stored a record under `"user"`, that record's `ValidUntil` is not earlier than
the clock read at verification (line 515 rejects only when `ValidUntil` is
before the clock); and a token whose record has `ValidUntil` equal to the
clock exactly is accepted: with the bypass off, the token decoding to at least
24 bytes, the secret at hand, the box opening and the record deserialising,
`tokenFilter` returns `(true, nil)` and stores that record. -/
theorem tokenFilter_valid_until (m : Mode) (lib : Lib) (now : Int) (o : Oracle) (w : World)
    (r : Req) :
    (∀ u, (tokenFilter m lib now o w r).ret = some (true, none) →
      (tokenFilter m lib now o w r).user = some u → now ≤ u.ValidUntil) ∧
    (∀ (q : Bool) (tok : String) (b key plain : List Nat) (w1 : World) (u : User),
      BypassOff m r → locateToken lib r = .ok (q, tok) → tok ≠ "" →
      lib.decodeString tok = .ok b → 24 ≤ b.length → getNaCl o w = (.ok key, w1) →
      lib.secretboxOpen (b.drop 24) (copyInto 24 b) (copyInto 32 key) = some plain →
      lib.unmarshal plain = .ok u → u.ValidUntil = now →
      tokenFilter m lib now o w r =
        ⟨some (true, none), some u, if q then some ⟨"token", tok⟩ else none, w1⟩) := by
  refine ⟨fun u _ huser => tokenFilter_user_not_before m lib now o w r u huser, ?_⟩
  intro q tok b key plain w1 u hoff hloc hne hdec hlen hkey hopen hjson heq
  rw [tokenFilter_verify m lib now o w w1 r q tok b key hoff hloc hne hdec hkey]
  have h24 : ¬ b.length < 24 := by omega
  have hnot : ¬ u.ValidUntil < now := by omega
  simp [h24, hopen, hjson, hnot]

/-- C7, counterexample to the claim as stated. The token issued for a record
with `ValidUntil = 100` is presented when the clock reads exactly `100`:
`tokenFilter` returns `(true, nil)` and stores the record, whose `ValidUntil`
is not strictly later than the clock; it is not rejected with status 401. -/
theorem tokenFilter_strict_validity_counterexample :
    tokenFilter ⟨false, false⟩ demoLib 100 calm (warmWorld [7])
        ⟨"", "AAECAwQFBgcICQoLDA0ODxAREhMUFRYXG2R1", ""⟩ =
      ⟨some (true, none), some (demoUser "u" 100),
        some ⟨"token", "AAECAwQFBgcICQoLDA0ODxAREhMUFRYXG2R1"⟩, warmWorld [7]⟩ ∧
    (encodeToken demoLib calm calm (warmWorld [7]) (demoUser "u" 100)).1 =
      .ok "AAECAwQFBgcICQoLDA0ODxAREhMUFRYXG2R1" ∧
    ¬ ((100 : Int) < (demoUser "u" 100).ValidUntil) := by
  refine ⟨by rfl, by rfl, by decide⟩

/-- Outside the bypass branch the link decorator, when one is registered,
sets the parameter `token`. -/
theorem tokenFilter_links_of_cond_false (m : Mode) (lib : Lib) (now : Int) (o : Oracle)
    (w : World) (r : Req)
    (hb : ((m.TestMode || m.isDevAppServer) && decide (r.fakeID ≠ "")) = false) :
    (tokenFilter m lib now o w r).links = none ∨
    ∃ tok, (tokenFilter m lib now o w r).links = some ⟨"token", tok⟩ := by
  unfold tokenFilter
  simp only [hb, Bool.false_eq_true, if_false]
  repeat' split
  all_goals simp

/-- C8. Test bypass. The run of `tokenFilter` is the bypass run (it returns
`(true, nil)`, stores under `"user"` the synthesized record, whose `Id` is the
`fake-id` parameter and whose other fields are those of lines 449-457,
registers the `fake-id` link decorator and leaves the package state
untouched) if and only if `TestMode` or `IsDevAppServer()` holds and `fake-id`
is non-empty. In that case the record stored has `Id` equal to `fake-id`, and
the run is the same whatever the token, the header, the library and the
environment are, so no token is examined. When neither flag holds, replacing
the `fake-id` parameter of a request by any other value changes nothing in
the run: same returned pair, same `"user"` value or none. -/
theorem tokenFilter_bypass (m : Mode) (lib : Lib) (now : Int) (o : Oracle) (w : World) (r : Req) :
    (tokenFilter m lib now o w r =
        ⟨some (true, none),
          some
            { Email := "fake@fake.fake", FamilyName := "Fakeson", Gender := "",
              GivenName := "Fakey", Hd := "", Id := r.fakeID, Link := "", Locale := "",
              Name := "Fakey Fakeson", Picture := "", VerifiedEmail := true,
              ValidUntil := now + 86400000000000 },
          some ⟨"fake-id", r.fakeID⟩, w⟩ ↔
      (m.TestMode = true ∨ m.isDevAppServer = true) ∧ r.fakeID ≠ "") ∧
    ((m.TestMode = true ∨ m.isDevAppServer = true) ∧ r.fakeID ≠ "" →
      (∃ u, (tokenFilter m lib now o w r).user = some u ∧ u.Id = r.fakeID) ∧
      (tokenFilter m lib now o w r).ret = some (true, none) ∧
      ∀ (lib2 : Lib) (o2 : Oracle) (tok authorization : String),
        tokenFilter m lib2 now o2 w ⟨r.fakeID, tok, authorization⟩ =
          ⟨some (true, none),
            some
            { Email := "fake@fake.fake", FamilyName := "Fakeson", Gender := "",
              GivenName := "Fakey", Hd := "", Id := r.fakeID, Link := "", Locale := "",
              Name := "Fakey Fakeson", Picture := "", VerifiedEmail := true,
              ValidUntil := now + 86400000000000 },
            some ⟨"fake-id", r.fakeID⟩, w⟩) ∧
    (m.TestMode = false → m.isDevAppServer = false →
      ∀ fakeID2 : String,
        tokenFilter m lib now o w ⟨fakeID2, r.token, r.authorization⟩ =
          tokenFilter m lib now o w r) := by
  have hon : ∀ (lib2 : Lib) (o2 : Oracle) (r2 : Req),
      (m.TestMode = true ∨ m.isDevAppServer = true) ∧ r2.fakeID ≠ "" →
      tokenFilter m lib2 now o2 w r2 =
        ⟨some (true, none),
          some
            { Email := "fake@fake.fake", FamilyName := "Fakeson", Gender := "",
              GivenName := "Fakey", Hd := "", Id := r2.fakeID, Link := "", Locale := "",
              Name := "Fakey Fakeson", Picture := "", VerifiedEmail := true,
              ValidUntil := now + 86400000000000 },
          some ⟨"fake-id", r2.fakeID⟩, w⟩ := by
    intro lib2 o2 r2 h
    have hb : ((m.TestMode || m.isDevAppServer) && decide (r2.fakeID ≠ "")) = true := by
      rcases h with ⟨h1 | h1, h2⟩ <;> simp [h1, h2]
    unfold tokenFilter
    simp only [hb, if_true, fakeUser, day]
    norm_num
  refine ⟨⟨?_, hon lib o r⟩, ?_, ?_⟩
  · intro h
    by_contra hc
    have hb := bypass_cond_false m r hc
    have hl := congrArg Result.links h
    rcases tokenFilter_links_of_cond_false m lib now o w r hb with h0 | ⟨tok, h1⟩
    · rw [h0] at hl
      simp at hl
    · rw [h1] at hl
      simp only [Option.some.injEq, LinkDecor.mk.injEq] at hl
      exact absurd hl.1 (by decide)
  · intro h
    refine ⟨?_, ?_, ?_⟩
    · rw [hon lib o r h]
      exact ⟨_, rfl, rfl⟩
    · rw [hon lib o r h]
    · intro lib2 o2 tok authorization
      exact hon lib2 o2 ⟨r.fakeID, tok, authorization⟩ h
  · intro hT hD fakeID2
    unfold tokenFilter
    simp [hT, hD, locateToken]

theorem tokenFilter_bypass_witness :
    tokenFilter ⟨true, false⟩ demoLib 5 calm coldWorld ⟨"alice", "!!!!", "Basic abc"⟩ =
      ⟨some (true, none),
        some { Email := "fake@fake.fake", FamilyName := "Fakeson", Gender := "",
               GivenName := "Fakey", Hd := "", Id := "alice", Link := "", Locale := "",
               Name := "Fakey Fakeson", Picture := "", VerifiedEmail := true,
               ValidUntil := 86400000000005 },
        some ⟨"fake-id", "alice"⟩, coldWorld⟩ :=
  ((tokenFilter_bypass ⟨true, false⟩ demoLib 5 calm coldWorld ⟨"alice", "", ""⟩).2.1
    ⟨Or.inl rfl, by decide⟩).2.2 demoLib calm "!!!!" "Basic abc"

/-- The errors of `getNaCl` come from the datastore or from `rand.Reader`. -/
theorem getNaCl_error_other (o : Oracle) (w w2 : World) (e : GoError)
    (h : getNaCl o w = (.error e, w2)) : ∃ msg, e = .other msg := by
  unfold getNaCl at h
  cases hp : w.prodNaCl with
  | some n => simp [hp] at h
  | none =>
    simp only [hp] at h
    cases hg : datastoreGet o.getErr w.naClEntity with
    | found v => simp [hg] at h
    | failed e1 =>
      simp only [hg] at h
      injection h with h1 _
      injection h1 with h1
      exact ⟨e1, h1.symm⟩
    | noSuchEntity =>
      simp only [hg] at h
      cases hr : readFull o 32 with
      | error e1 =>
        simp only [hr] at h
        injection h with h1 _
        injection h1 with h1
        exact ⟨e1, h1.symm⟩
      | ok fresh =>
        simp only [hr] at h
        cases htx : naClTx o fresh (txSlot o w) with
        | error e1 =>
          simp only [htx] at h
          injection h with h1 _
          injection h1 with h1
          exact ⟨e1, h1.symm⟩
        | ok res =>
          obtain ⟨found, slot⟩ := res
          simp only [htx] at h
          cases hcm : o.commitErr with
          | none => simp [hcm] at h
          | some e1 =>
            simp only [hcm] at h
            injection h with h1 _
            injection h1 with h1
            exact ⟨e1, h1.symm⟩

/-- Once a token has been located, `tokenFilter` returns no `HTTPErr` of
status 400. -/
theorem tokenFilter_no_400_of_located (m : Mode) (lib : Lib) (now : Int) (o : Oracle)
    (w : World) (r : Req) (q : Bool) (tok : String)
    (hb : ((m.TestMode || m.isDevAppServer) && decide (r.fakeID ≠ "")) = false)
    (hloc : locateToken lib r = .ok (q, tok)) (body : String) :
    (tokenFilter m lib now o w r).ret ≠ some (false, some (.HTTPErr body 400)) := by
  unfold tokenFilter
  simp only [hb, hloc, Bool.false_eq_true, if_false]
  repeat' split
  all_goals first
    | simp; done
    | (rename_i e w1 heq
       obtain ⟨msg, rfl⟩ := getNaCl_error_other o w w1 e heq
       simp)

/-- On a character whose ASCII lower-casing is an ASCII character,
`unicode.ToLower` is the ASCII lower-casing. -/
theorem unicodeToLower_of_toLower (lib : Lib) (c d : Char) (h : c.toLower = d)
    (hd : d.toNat ≤ 127) : unicodeToLower lib c = d := by
  unfold Char.toLower at h
  unfold unicodeToLower
  by_cases hc : c.toNat ≤ 127
  · simp only [hc, if_true]
    simpa using h
  · have h90 : ¬ (c.toNat ≥ 65 ∧ c.toNat ≤ 90) := by omega
    simp only [h90, if_false] at h
    subst h
    exact absurd hd hc

theorem stringsToLower_of_toLower (lib : Lib) (p l : List Char) (h : p.map Char.toLower = l)
    (hl : ∀ d ∈ l, d.toNat ≤ 127) : stringsToLower lib p = l := by
  subst h
  unfold stringsToLower
  apply List.map_congr_left
  intro c hc
  exact unicodeToLower_of_toLower lib c c.toLower rfl (hl _ (List.mem_map_of_mem _ hc))

/-- C5. Malformed Authorization header. Take a request with the bypass off, an
empty `token` query parameter and a non-empty `Authorization` header. If the
header does not split on single spaces into exactly two parts, or its first
part lower-cased is not `"bearer"`, then `tokenFilter` returns
`(false, HTTPErr{_, 400})`, stores no user and leaves the package state
untouched, and does so whatever the base64 decoder, the decryption and the
environment of the secret lookup are: none of them is consulted. If the header
splits into two parts and the first equals `"bearer"` up to ASCII case, the
check passes and the second part is the token. -/
theorem tokenFilter_malformed_header (m : Mode) (lib : Lib) (now : Int) (w : World)
    (r : Req) (hoff : BypassOff m r) (htok : r.token = "") (hauth : r.authorization ≠ "") :
    ((stringsSplit ' ' r.authorization.toList).length ≠ 2 ∨
        (∃ p0 p1, stringsSplit ' ' r.authorization.toList = [p0, p1] ∧
          stringsToLower lib p0 ≠ "bearer".toList) →
      ∃ body, ∀ (lib2 : Lib) (o2 : Oracle), lib2.toLowerTable = lib.toLowerTable →
        tokenFilter m lib2 now o2 w r = ⟨some (false, some (.HTTPErr body 400)), none, none, w⟩) ∧
    (∀ p0 p1, stringsSplit ' ' r.authorization.toList = [p0, p1] →
      p0.map Char.toLower = "bearer".toList →
      locateToken lib r = .ok (false, String.mk p1) ∧
      ∀ (o : Oracle) (body : String),
        (tokenFilter m lib now o w r).ret ≠ some (false, some (.HTTPErr body 400))) := by
  have hb := bypass_cond_false m r hoff
  have hlow : ∀ (lib2 : Lib) (p : List Char), lib2.toLowerTable = lib.toLowerTable →
      stringsToLower lib2 p = stringsToLower lib p := by
    intro lib2 p h
    unfold stringsToLower unicodeToLower
    rw [h]
  have hrej : ∀ (lib2 : Lib) (o2 : Oracle) (e : GoError), locateToken lib2 r = .error e →
      tokenFilter m lib2 now o2 w r = ⟨some (false, some e), none, none, w⟩ := by
    intro lib2 o2 e hloc
    unfold tokenFilter
    simp only [hb, hloc]
    simp
  have hq : ¬ r.token ≠ "" := by simp [htok]
  refine ⟨?_, ?_⟩
  · rintro (hlen | ⟨p0, p1, hsplit, hlower⟩)
    · refine ⟨"Authorization header not two parts joined by space", ?_⟩
      intro lib2 o2 _
      apply hrej
      unfold locateToken
      rw [if_neg hq, if_pos hauth]
      split
      · rename_i heq
        rw [heq] at hlen
        simp at hlen
      · rfl
    · refine ⟨"Authorization header part 1 not 'bearer'", ?_⟩
      intro lib2 o2 h2
      apply hrej
      unfold locateToken
      rw [if_neg hq, if_pos hauth, hsplit]
      simp only
      rw [if_pos (by rw [hlow lib2 p0 h2]; exact hlower)]
  · intro p0 p1 hsplit hfold
    have hl := stringsToLower_of_toLower lib p0 "bearer".toList hfold (by decide)
    have hloc : locateToken lib r = .ok (false, String.mk p1) := by
      unfold locateToken
      rw [if_neg hq, if_pos hauth, hsplit]
      simp only
      rw [if_neg (by simp [hl])]
    exact ⟨hloc, fun o body => tokenFilter_no_400_of_located m lib now o w r false _ hb hloc body⟩

theorem tokenFilter_malformed_header_witness :
    (∃ body, ∀ (lib2 : Lib) (o2 : Oracle), lib2.toLowerTable = demoLib.toLowerTable →
      tokenFilter ⟨false, false⟩ lib2 5 o2 coldWorld ⟨"", "", "Basic abc"⟩ =
        ⟨some (false, some (.HTTPErr body 400)), none, none, coldWorld⟩) ∧
    (∃ body, ∀ (lib2 : Lib) (o2 : Oracle), lib2.toLowerTable = demoLib.toLowerTable →
      tokenFilter ⟨false, false⟩ lib2 5 o2 coldWorld ⟨"", "", "Bearer"⟩ =
        ⟨some (false, some (.HTTPErr body 400)), none, none, coldWorld⟩) ∧
    locateToken demoLib ⟨"", "", "BeArEr abc"⟩ = .ok (false, "abc") :=
  ⟨(tokenFilter_malformed_header ⟨false, false⟩ demoLib 5 coldWorld ⟨"", "", "Basic abc"⟩
      (by unfold BypassOff; decide) rfl (by decide)).1
      (Or.inr ⟨"Basic".toList, "abc".toList, by rfl, by decide⟩),
   (tokenFilter_malformed_header ⟨false, false⟩ demoLib 5 coldWorld ⟨"", "", "Bearer"⟩
      (by unfold BypassOff; decide) rfl (by decide)).1 (Or.inl (by decide)),
   ((tokenFilter_malformed_header ⟨false, false⟩ demoLib 5 coldWorld ⟨"", "", "BeArEr abc"⟩
      (by unfold BypassOff; decide) rfl (by decide)).2 "BeArEr".toList "abc".toList
      (by rfl) (by decide)).1⟩

/-- What the transaction function of `getNaCl` does to an entity that exists:
it adopts the stored secret and writes nothing. -/
theorem naClTx_of_some (o : Oracle) (found v : List Nat) (r : List Nat × Option (List Nat))
    (h : naClTx o found (some v) = .ok r) : r = (v, some v) := by
  unfold naClTx datastoreGet at h
  cases hg : o.txGetErr with
  | some e => simp [hg] at h
  | none =>
    simp only [hg] at h
    injection h with h
    exact h.symm

/-- What the transaction function of `getNaCl` does to an absent entity: it
stores the value of `foundNaCl`. -/
theorem naClTx_of_none (o : Oracle) (found : List Nat) (r : List Nat × Option (List Nat))
    (h : naClTx o found none = .ok r) : r = (found, some found) := by
  unfold naClTx datastoreGet at h
  cases hg : o.txGetErr with
  | some e => simp [hg] at h
  | none =>
    simp only [hg] at h
    cases hp : o.txPutErr with
    | some e => simp [hp] at h
    | none =>
      simp only [hp] at h
      injection h with h
      exact h.symm

/-- A process that has no secret in memory is coherent with any datastore. -/
theorem coherent_of_cache_empty (w : World) (h : w.prodNaCl = none) : Coherent w := by
  intro s hs
  rw [h] at hs
  cases hs

/-- Another writer creating the entity when it is absent keeps coherence. -/
theorem coherent_of_create (w : World) (v : List Nat) (hc : Coherent w)
    (habsent : w.naClEntity = none) : Coherent { w with naClEntity := some v } := by
  intro s hs
  have := hc s hs
  rw [habsent] at this
  cases this

/-- The cases of a successful `getNaCl`. -/
theorem getNaCl_ok_cases (o : Oracle) (w w2 : World) (s : List Nat)
    (h : getNaCl o w = (.ok s, w2)) :
    (w.prodNaCl = some s ∧ w2 = w) ∨
    (w.prodNaCl = none ∧ w.naClEntity = some s ∧ w2 = w) ∨
    (w.prodNaCl = none ∧ w.naClEntity = none ∧ ∃ fresh, readFull o 32 = .ok fresh ∧
      ((o.racer = none ∧ s = fresh) ∨ o.racer = some s) ∧
      w2 = { w with naClEntity := some s, prodNaCl := some s }) := by
  unfold getNaCl at h
  cases hp : w.prodNaCl with
  | some n =>
    simp only [hp] at h
    injection h with h1 h2
    injection h1 with h1
    left
    exact ⟨by rw [h1], h2.symm⟩
  | none =>
    right
    simp only [hp] at h
    cases hg : o.getErr with
    | some e => simp [datastoreGet, hg] at h
    | none =>
      cases he : w.naClEntity with
      | some v =>
        simp only [datastoreGet, hg, he] at h
        injection h with h1 h2
        injection h1 with h1
        left
        exact ⟨rfl, by rw [h1], h2.symm⟩
      | none =>
        right
        simp only [datastoreGet, hg, he] at h
        cases hr : readFull o 32 with
        | error e => simp [hr] at h
        | ok fresh =>
          simp only [hr, txSlot, he] at h
          refine ⟨rfl, rfl, fresh, rfl, ?_⟩
          cases htx : naClTx o fresh o.racer with
          | error e => simp [htx] at h
          | ok res =>
            obtain ⟨found, slot⟩ := res
            simp only [htx] at h
            cases hcm : o.commitErr with
            | some e => simp [hcm] at h
            | none =>
              simp only [hcm] at h
              injection h with h1 h2
              injection h1 with h1
              subst h1
              cases hrc : o.racer with
              | none =>
                rw [hrc] at htx
                have := naClTx_of_none o fresh _ htx
                injection this with ha hb
                subst ha
                refine ⟨Or.inl ⟨rfl, rfl⟩, ?_⟩
                rw [← h2, hb]
              | some v =>
                rw [hrc] at htx
                have := naClTx_of_some o fresh v _ htx
                injection this with ha hb
                subst ha
                refine ⟨Or.inr rfl, ?_⟩
                rw [← h2, hb]

/-- In a coherent state a successful `getNaCl` returns the secret the
datastore holds after the call, keeps a secret the datastore or the
transaction already had, writes only the 32 fresh bytes and only when the
transaction found the entity absent, and leaves a coherent state. -/
theorem getNaCl_ok_spec (o : Oracle) (w w2 : World) (s : List Nat)
    (hc : Coherent w) (h : getNaCl o w = (.ok s, w2)) :
    w2.naClEntity = some s ∧
    (∀ v, w.naClEntity = some v → w2.naClEntity = some v) ∧
    (∀ v, txSlot o w = some v → w2.naClEntity = some v) ∧
    (w2.naClEntity ≠ txSlot o w →
      txSlot o w = none ∧ readFull o 32 = .ok s ∧ s.length = 32) ∧
    Coherent w2 := by
  rcases getNaCl_ok_cases o w w2 s h with ⟨hp, rfl⟩ | ⟨hp, he, rfl⟩ | ⟨hp, he, fresh, hr, hs, rfl⟩
  · have he := hc s hp
    refine ⟨he, fun v hv => hv, ?_, ?_, hc⟩
    · intro v hv
      simpa [txSlot, he] using hv
    · intro hne
      exact absurd (by simp [txSlot, he]) hne
  · refine ⟨he, fun v hv => hv, ?_, ?_, hc⟩
    · intro v hv
      simpa [txSlot, he] using hv
    · intro hne
      exact absurd (by simp [txSlot, he]) hne
  · refine ⟨rfl, ?_, ?_, ?_, ?_⟩
    · intro v hv
      rw [he] at hv
      cases hv
    · intro v hv
      simp only [txSlot, he] at hv
      rcases hs with ⟨hn, _⟩ | hsome
      · rw [hn] at hv
        cases hv
      · rw [hsome] at hv
        exact hv
    · intro hne
      simp only [txSlot, he] at hne ⊢
      rcases hs with ⟨hn, hfresh⟩ | hsome
      · subst hfresh
        exact ⟨hn, hr, readFull_length o 32 _ hr⟩
      · exact absurd hsome.symm hne
    · intro t ht
      simpa using ht

/-- A failed `getNaCl` leaves no secret in memory. -/
theorem getNaCl_error_cache (o : Oracle) (w w2 : World) (e : GoError)
    (h : getNaCl o w = (.error e, w2)) : w2.prodNaCl = none := by
  unfold getNaCl at h
  cases hp : w.prodNaCl with
  | some n => simp [hp] at h
  | none =>
    simp only [hp] at h
    cases hg : datastoreGet o.getErr w.naClEntity with
    | found v => simp [hg] at h
    | failed e1 =>
      simp only [hg] at h
      injection h with _ h2
      rw [← h2, hp]
    | noSuchEntity =>
      simp only [hg] at h
      cases hr : readFull o 32 with
      | error e1 =>
        simp only [hr] at h
        injection h with _ h2
        rw [← h2, hp]
      | ok fresh =>
        simp only [hr] at h
        cases htx : naClTx o fresh (txSlot o w) with
        | error e1 =>
          simp only [htx] at h
          injection h with _ h2
          rw [← h2]
        | ok res =>
          obtain ⟨found, slot⟩ := res
          simp only [htx] at h
          cases hcm : o.commitErr with
          | none => simp [hcm] at h
          | some e1 =>
            simp only [hcm] at h
            injection h with _ h2
            rw [← h2]

/-- Coherence is kept by `getNaCl`, whether it succeeds or fails. -/
theorem getNaCl_coherent (o : Oracle) (w : World) (hc : Coherent w) :
    Coherent (getNaCl o w).2 := by
  cases hres : getNaCl o w with
  | mk res w2 =>
    cases res with
    | ok s =>
      rcases getNaCl_ok_cases o w w2 s hres with ⟨_, rfl⟩ | ⟨_, _, rfl⟩ | ⟨_, _, _, _, _, rfl⟩
      · exact hc
      · exact hc
      · intro t ht
        simpa using ht
    | error e => exact coherent_of_cache_empty w2 (getNaCl_error_cache o w w2 e hres)

/-- Coherence holds after any list of events in a process that started with
no secret in memory. -/
theorem history_coherent (evs : List Event) (w0 : World) (hc : Coherent w0) :
    Coherent (history evs w0) := by
  unfold history
  induction evs generalizing w0 with
  | nil => exact hc
  | cons ev rest ih =>
    apply ih
    cases ev with
    | call o => exact getNaCl_coherent o w0 hc
    | create v =>
      simp only [step]
      cases he : w0.naClEntity with
      | some x => exact hc
      | none => exact coherent_of_create w0 v hc he

/-- C9. Secret convergence. The datastore entity is an optional value; another
writer may create it between the first read of `getNaCl` and its transaction
(`Oracle.racer`) and between calls (`Event.create`). Take a process that
started with no secret in memory and any history of earlier `getNaCl` calls
and such writers. Every successful `getNaCl` call then returns exactly the
secret the datastore holds after the call; a secret that was in the datastore
before the call, or that the transaction found there, is still there after
it; and the datastore differs from what the transaction found only when the
transaction found the entity absent, in which case what was written is the 32
bytes just read from `rand.Reader`. -/
theorem getNaCl_converges (evs : List Event) (w0 : World) (o : Oracle) (w2 : World)
    (s : List Nat) (hfresh : w0.prodNaCl = none)
    (h : getNaCl o (history evs w0) = (.ok s, w2)) :
    w2.naClEntity = some s ∧
    (∀ v, (history evs w0).naClEntity = some v → w2.naClEntity = some v) ∧
    (∀ v, txSlot o (history evs w0) = some v → w2.naClEntity = some v) ∧
    (w2.naClEntity ≠ txSlot o (history evs w0) →
      txSlot o (history evs w0) = none ∧ readFull o 32 = .ok s ∧ s.length = 32) := by
  have hc := history_coherent evs w0 (coherent_of_cache_empty w0 hfresh)
  have hspec := getNaCl_ok_spec o (history evs w0) w2 s hc h
  exact ⟨hspec.1, hspec.2.1, hspec.2.2.1, hspec.2.2.2.1⟩

theorem getNaCl_converges_witness :
    (getNaCl calm (history [.call (raced [9])] coldWorld)).1 = .ok [9] ∧
    (⟨some [9], none, some [9], none⟩ : World).naClEntity = some [9] :=
  ⟨by rfl,
    (getNaCl_converges [.call (raced [9])] coldWorld calm ⟨some [9], none, some [9], none⟩ [9]
      rfl (by rfl)).1⟩

/-- No call of `getNaCl`, successful or not, changes an entity that exists. -/
theorem getNaCl_keeps_entity (o : Oracle) (w : World) (v : List Nat)
    (h : w.naClEntity = some v) : (getNaCl o w).2.naClEntity = some v := by
  unfold getNaCl
  cases hp : w.prodNaCl with
  | some n => simpa using h
  | none =>
    cases hg : o.getErr with
    | some e => simpa [datastoreGet, hg] using h
    | none => simp [datastoreGet, hg, h]

/-- No event changes an entity that exists. -/
theorem history_keeps_entity (evs : List Event) (w : World) (v : List Nat)
    (h : w.naClEntity = some v) : (history evs w).naClEntity = some v := by
  unfold history
  induction evs generalizing w with
  | nil => exact h
  | cons ev rest ih =>
    apply ih
    cases ev with
    | call o => exact getNaCl_keeps_entity o w v h
    | create x => simp [step, h]

/-- Two successful calls of `getNaCl` in the life of a process return the same
secret, whatever happens between them. -/
theorem getNaCl_same_secret (evs evs2 : List Event) (w0 w2 w3 : World) (o o2 : Oracle)
    (s s2 : List Nat) (hfresh : w0.prodNaCl = none)
    (h1 : getNaCl o (history evs w0) = (.ok s, w2))
    (h2 : getNaCl o2 (history evs2 w2) = (.ok s2, w3)) : s2 = s := by
  have hc := history_coherent evs w0 (coherent_of_cache_empty w0 hfresh)
  have hs1 := getNaCl_ok_spec o (history evs w0) w2 s hc h1
  have hc2 := history_coherent evs2 w2 hs1.2.2.2.2
  have hs2 := getNaCl_ok_spec o2 (history evs2 w2) w3 s2 hc2 h2
  have hkeep := history_keeps_entity evs2 w2 s hs1.1
  have := hs2.2.1 s hkeep
  rw [hs2.1] at this
  injection this

/-- `getOAuth`, the sibling of `getNaCl`, keeps in memory what it finds in the
datastore. -/
theorem getOAuth_found_is_cached (o : Oracle) (w : World) (a : OAuth)
    (hcache : w.prodOAuth = none) (hstore : w.oAuthEntity = some a) (hget : o.getErr = none) :
    getOAuth o w = (.ok a, { w with prodOAuth := some a }) := by
  simp [getOAuth, datastoreGet, hcache, hstore, hget]

/-- C10: what the code does. When the in-memory cache is empty and the
datastore already holds the secret `key`, a `getNaCl` call whose first
`datastore.Get` succeeds returns `key` from line 267 without assigning
`prodNaCl`: the cache is still empty after the call, and the next call goes
to the datastore again, failing whenever its `datastore.Get` fails. -/
theorem getNaCl_found_not_cached (o : Oracle) (w : World) (key : List Nat)
    (hcache : w.prodNaCl = none) (hstore : w.naClEntity = some key) (hget : o.getErr = none) :
    getNaCl o w = (.ok key, w) ∧
    (getNaCl o w).2.prodNaCl = none ∧
    ∀ (o2 : Oracle) (e : String), o2.getErr = some e →
      (getNaCl o2 (getNaCl o w).2).1 = .error (.other e) := by
  have h : getNaCl o w = (.ok key, w) := by
    simp [getNaCl, datastoreGet, hcache, hstore, hget]
  refine ⟨h, by rw [h]; exact hcache, ?_⟩
  intro o2 e he
  rw [h]
  simp [getNaCl, datastoreGet, hcache, he]

theorem getNaCl_found_not_cached_witness :
    getNaCl calm ⟨none, none, some [7], none⟩ = (.ok [7], ⟨none, none, some [7], none⟩) ∧
    (getNaCl calm ⟨none, none, some [7], none⟩).2.prodNaCl = none ∧
    ∀ (o2 : Oracle) (e : String), o2.getErr = some e →
      (getNaCl o2 (getNaCl calm ⟨none, none, some [7], none⟩).2).1 = .error (.other e) :=
  getNaCl_found_not_cached calm ⟨none, none, some [7], none⟩ [7] rfl rfl rfl

/-- `SetOAuth` when the entity exists and the read inside the transaction
succeeds: the early return of line 307, datastore untouched. -/
theorem SetOAuth_of_some (o : Oracle) (w : World) (oAuth cur : OAuth)
    (hget : o.txGetErr = none) (hcur : w.oAuthEntity = some cur) :
    SetOAuth o w oAuth = (some (.HTTPErr "OAuth already configured" 400), w) := by
  simp [SetOAuth, setOAuthTx, datastoreGet, hget, hcur]

/-- `SetOAuth` when the entity is absent and write and commit succeed. -/
theorem SetOAuth_of_none (o : Oracle) (w : World) (oAuth : OAuth)
    (hget : o.txGetErr = none) (hput : o.txPutErr = none) (hcommit : o.commitErr = none)
    (hcur : w.oAuthEntity = none) :
    SetOAuth o w oAuth = (none, { w with oAuthEntity := some oAuth }) := by
  simp [SetOAuth, setOAuthTx, datastoreGet, hget, hput, hcommit, hcur]

/-- `SetOAuth` with a working read. Let the `datastore.Get` inside the
transaction of `SetOAuth` not fail with an error other than
`ErrNoSuchEntity`. If the
datastore already holds client credentials, `SetOAuth` returns
`HTTPErr{"OAuth already configured", 400}` and leaves them unchanged. If the
entity is absent and `datastore.Put` and the commit succeed, `SetOAuth` stores
the given credentials and returns nil; if one of the two fails, `SetOAuth`
returns that error and the entity stays absent. Hence, of two sequential
`SetOAuth` calls starting from an empty slot, the first with write and commit
succeeding, the first returns nil, the second returns the already-configured
error, and the datastore ends holding the credentials of the first call. -/
theorem SetOAuth_once (o o2 : Oracle) (w : World) (a b : OAuth)
    (hget : o.txGetErr = none) :
    (∀ cur, w.oAuthEntity = some cur →
      SetOAuth o w a = (some (.HTTPErr "OAuth already configured" 400), w)) ∧
    (w.oAuthEntity = none → o.txPutErr = none → o.commitErr = none →
      SetOAuth o w a = (none, { w with oAuthEntity := some a })) ∧
    (w.oAuthEntity = none →
      ∀ e, o.txPutErr = some e ∨ (o.txPutErr = none ∧ o.commitErr = some e) →
        SetOAuth o w a = (some (.other e), w)) ∧
    (w.oAuthEntity = none → o.txPutErr = none → o.commitErr = none → o2.txGetErr = none →
      (SetOAuth o w a).1 = none ∧
      (SetOAuth o2 (SetOAuth o w a).2 b).1 = some (.HTTPErr "OAuth already configured" 400) ∧
      (SetOAuth o2 (SetOAuth o w a).2 b).2.oAuthEntity = some a) := by
  refine ⟨?_, ?_, ?_, ?_⟩
  · intro cur hcur
    exact SetOAuth_of_some o w a cur hget hcur
  · intro hcur hput hcommit
    exact SetOAuth_of_none o w a hget hput hcommit hcur
  · intro hcur e he
    rcases he with hput | ⟨hput, hcommit⟩
    · simp [SetOAuth, setOAuthTx, datastoreGet, hget, hput, hcur]
    · simp [SetOAuth, setOAuthTx, datastoreGet, hget, hput, hcommit, hcur]
  · intro hcur hput hcommit hget2
    rw [SetOAuth_of_none o w a hget hput hcommit hcur]
    rw [SetOAuth_of_some o2 { w with oAuthEntity := some a } b a hget2 rfl]
    exact ⟨rfl, rfl, rfl⟩

theorem SetOAuth_once_witness :
    SetOAuth calm coldWorld ⟨"id-a", "secret-a"⟩ = (none, provisioned ⟨"id-a", "secret-a"⟩) ∧
    SetOAuth calm (provisioned ⟨"id-a", "secret-a"⟩) ⟨"id-b", "secret-b"⟩ =
      (some (.HTTPErr "OAuth already configured" 400), provisioned ⟨"id-a", "secret-a"⟩) :=
  ⟨(SetOAuth_once calm calm coldWorld ⟨"id-a", "secret-a"⟩ ⟨"id-b", "secret-b"⟩ rfl).2.1
      rfl rfl rfl,
   (SetOAuth_once calm calm (provisioned ⟨"id-a", "secret-a"⟩) ⟨"id-b", "secret-b"⟩
      ⟨"id-b", "secret-b"⟩ rfl).1 ⟨"id-a", "secret-a"⟩ rfl⟩

/-- C11: what the code does. Line 306 of `SetOAuth` tests only `err == nil`.
When the datastore already holds the client credentials `cur` and the
`datastore.Get` inside the transaction fails with an error that is not
`ErrNoSuchEntity`, while `datastore.Put` and the commit succeed, `SetOAuth`
goes on to `datastore.Put`: it returns nil, not
`HTTPErr{"OAuth already configured", 400}`, and the stored credentials are
replaced by the given ones. The transaction function of `getNaCl` returns the
error of the read in this case (lines 280-281). -/
theorem SetOAuth_overwrites_on_read_error (o : Oracle) (w : World) (oAuth cur : OAuth)
    (e : String) (hcur : w.oAuthEntity = some cur)
    (hget : o.txGetErr = some e) (hput : o.txPutErr = none) (hcommit : o.commitErr = none) :
    SetOAuth o w oAuth = (none, { w with oAuthEntity := some oAuth }) ∧
    (SetOAuth o w oAuth).1 ≠ some (.HTTPErr "OAuth already configured" 400) ∧
    (SetOAuth o w oAuth).2.oAuthEntity = some oAuth ∧
    (oAuth ≠ cur → (SetOAuth o w oAuth).2.oAuthEntity ≠ w.oAuthEntity) ∧
    ∀ (found : List Nat) (slot : Option (List Nat)),
      naClTx o found slot = .error e := by
  have h : SetOAuth o w oAuth = (none, { w with oAuthEntity := some oAuth }) := by
    simp [SetOAuth, setOAuthTx, datastoreGet, hget, hput, hcommit]
  refine ⟨h, ?_, ?_, ?_, ?_⟩
  · rw [h]
    simp
  · rw [h]
  · intro hne
    rw [h, hcur]
    simp only [ne_eq, Option.some.injEq]
    exact hne
  · intro found slot
    simp [naClTx, datastoreGet, hget]

theorem SetOAuth_overwrites_on_read_error_witness :
    SetOAuth (readFails "datastore: timeout") (provisioned ⟨"id-a", "secret-a"⟩)
        ⟨"id-b", "secret-b"⟩ =
      (none, provisioned ⟨"id-b", "secret-b"⟩) ∧
    (provisioned ⟨"id-a", "secret-a"⟩).oAuthEntity = some ⟨"id-a", "secret-a"⟩ :=
  ⟨(SetOAuth_overwrites_on_read_error (readFails "datastore: timeout")
      (provisioned ⟨"id-a", "secret-a"⟩) ⟨"id-b", "secret-b"⟩ ⟨"id-a", "secret-a"⟩
      "datastore: timeout" rfl rfl rfl rfl).1, rfl⟩

/-- After `Set`, `Get` of the same key returns the value set. -/
theorem Values.Get_Set_self (v : Values) (key value : String) :
    (v.Set key value).Get key = value := by
  simp [Values.Get, Values.Set]

/-- Looking up a key is not affected by removing the pairs of another key. -/
theorem lookup_filter_ne (v : Values) (key k : String) (hk : k ≠ key) :
    (v.filter fun p => p.1 ≠ key).lookup k = v.lookup k := by
  induction v with
  | nil => rfl
  | cons p rest ih =>
    obtain ⟨a, b⟩ := p
    by_cases ha : a = key
    · subst ha
      have hne : (k == a) = false := by simpa using hk
      rw [List.filter_cons, if_neg (by simp), List.lookup_cons, hne]
      exact ih
    · rw [List.filter_cons, if_pos (by simpa using ha), List.lookup_cons, List.lookup_cons, ih]

/-- After `Set`, `Get` of another key returns what it returned before. -/
theorem Values.Get_Set_ne (v : Values) (key value k : String) (hk : k ≠ key) :
    (v.Set key value).Get k = v.Get k := by
  have hne : (k == key) = false := by simpa using hk
  unfold Values.Get Values.Set
  rw [List.lookup_cons, hne]
  simp only
  rw [lookup_filter_ne v key k hk]

/-- The run of `loginRedirect` for the media type `text/html` and an
`HTTPErr` of status 401 when the URL of the Login route builds. -/
theorem loginRedirect_of_401 (lib : NetURL) (loginURL : URL) (req : HTTPReq) (body : String) :
    loginRedirect lib (.ok loginURL) "text/html" req (some (.HTTPErr body 401)) =
      ⟨(false, none),
        some ⟨lib.urlString
          { loginURL with
            RawQuery := lib.encode
              ((lib.query loginURL).Set "redirect-to" (lib.urlString (requestedURL req))) },
          307⟩,
        requestedURL req⟩ := by
  simp [loginRedirect, requestedURL]

/-- The run of `loginRedirect` for the media type `text/html` and an
`HTTPErr` of status 401 when the URL of the Login route does not build: the
error of the route is returned and no redirect is written. -/
theorem loginRedirect_route_error (lib : NetURL) (e : String) (req : HTTPReq) (body : String) :
    loginRedirect lib (.error e) "text/html" req (some (.HTTPErr body 401)) =
      ⟨(false, some (.other e)), none, requestedURL req⟩ := by
  simp [loginRedirect, requestedURL]

/-- The run of `loginRedirect` in every other case: the incoming error is
passed on and nothing else happens. -/
theorem loginRedirect_pass (lib : NetURL) (route : Except String URL) (media : String)
    (req : HTTPReq) (errI : Option GoError)
    (h : ¬ (media = "text/html" ∧ ∃ body, errI = some (.HTTPErr body 401))) :
    loginRedirect lib route media req errI = ⟨(true, errI), none, req.URL⟩ := by
  unfold loginRedirect
  by_cases hm : media = "text/html"
  · have hne : ¬ media ≠ "text/html" := by simp [hm]
    rw [if_neg hne]
    cases errI with
    | none => rfl
    | some e =>
      cases e with
      | other msg => rfl
      | HTTPErr body status =>
        by_cases hs : status = 401
        · subst hs
          exact absurd ⟨hm, body, rfl⟩ h
        · simp [hs]
  · rw [if_pos hm]

/-- C12. Unauthorized-redirect post-processor. Let the URL of the Login route
build, as it does for the route `SetupRouter` registers. `loginRedirect`
writes a redirect if and only if the media type is `"text/html"` and the
incoming error is an `HTTPErr` with `Status` 401. In that case it returns
`(false, nil)` and the redirect has status 307 and goes to the URL of the
Login route with a query in which `redirect-to` is the originally requested
URL (scheme from the presence of TLS, host from the request) and every other
parameter is as the route has it. In every other case it returns
`(true, errI)` with the error unchanged, writes no redirect and leaves the
request as it was. -/
theorem loginRedirect_spec (lib : NetURL) (route : Except String URL) (loginURL : URL)
    (media : String) (req : HTTPReq) (errI : Option GoError) (hroute : route = .ok loginURL) :
    ((loginRedirect lib route media req errI).redirect ≠ none ↔
      media = "text/html" ∧ ∃ body, errI = some (.HTTPErr body 401)) ∧
    (media = "text/html" → (∃ body, errI = some (.HTTPErr body 401)) →
      ∃ q : Values,
        loginRedirect lib route media req errI =
          ⟨(false, none), some ⟨lib.urlString { loginURL with RawQuery := lib.encode q }, 307⟩,
            requestedURL req⟩ ∧
        q.Get "redirect-to" = lib.urlString (requestedURL req) ∧
        ∀ k, k ≠ "redirect-to" → q.Get k = (lib.query loginURL).Get k) ∧
    (¬ (media = "text/html" ∧ ∃ body, errI = some (.HTTPErr body 401)) →
      loginRedirect lib route media req errI = ⟨(true, errI), none, req.URL⟩) := by
  subst hroute
  have hyes : media = "text/html" → (∃ body, errI = some (.HTTPErr body 401)) →
      ∃ q : Values,
        loginRedirect lib (.ok loginURL) media req errI =
          ⟨(false, none), some ⟨lib.urlString { loginURL with RawQuery := lib.encode q }, 307⟩,
            requestedURL req⟩ ∧
        q.Get "redirect-to" = lib.urlString (requestedURL req) ∧
        ∀ k, k ≠ "redirect-to" → q.Get k = (lib.query loginURL).Get k := by
    rintro rfl ⟨body, rfl⟩
    exact ⟨(lib.query loginURL).Set "redirect-to" (lib.urlString (requestedURL req)),
      loginRedirect_of_401 lib loginURL req body,
      Values.Get_Set_self _ _ _,
      fun k hk => Values.Get_Set_ne _ _ _ k hk⟩
  refine ⟨⟨?_, ?_⟩, hyes, loginRedirect_pass lib (.ok loginURL) media req errI⟩
  · intro hred
    by_contra hc
    rw [loginRedirect_pass lib (.ok loginURL) media req errI hc] at hred
    exact hred rfl
  · rintro ⟨hm, hb⟩
    obtain ⟨q, hq, _⟩ := hyes hm hb
    rw [hq]
    simp

theorem loginRedirect_spec_witness :
    loginRedirect demoURL loginRoute "text/html" (demoReq true)
        (some (.HTTPErr "token timed out" 401)) =
      ⟨(false, none),
        some ⟨"/Auth/Login?redirect-to=https%3A%2F%2Fexample.com%2FGame%2F1%3Fx%3D1", 307⟩,
        ⟨"https", "example.com", "/Game/1", "x=1"⟩⟩ ∧
    loginRedirect demoURL loginRoute "text/html" (demoReq true)
        (some (.HTTPErr "badly encrypted token" 403)) =
      ⟨(true, some (.HTTPErr "badly encrypted token" 403)), none, (demoReq true).URL⟩ ∧
    loginRedirect demoURL loginRoute "application/json" (demoReq false)
        (some (.HTTPErr "unauthorized" 401)) =
      ⟨(true, some (.HTTPErr "unauthorized" 401)), none, (demoReq false).URL⟩ :=
  ⟨by rfl,
   (loginRedirect_spec demoURL loginRoute ⟨"", "", "/Auth/Login", ""⟩ "text/html" (demoReq true)
      (some (.HTTPErr "badly encrypted token" 403)) rfl).2.2
      (by rintro ⟨_, body, h⟩; simp at h),
   (loginRedirect_spec demoURL loginRoute ⟨"", "", "/Auth/Login", ""⟩ "application/json"
      (demoReq false) (some (.HTTPErr "unauthorized" 401)) rfl).2.2
      (by rintro ⟨h, _⟩; exact absurd h (by decide))⟩

end Auth
